import Mathlib

/-
  Shallow embedding of the offline-first task sync client
  (services/syncService.ts, services/taskService.ts, routes/sync.ts).

  Conventions of the embedding:
  * ISO-8601 timestamps are modelled as natural numbers (a logical clock in
    the state supplies `new Date()`; each construction of a `Date` advances
    the clock, so later constructions are strictly later).
  * `crypto.randomUUID()` / `uuidv4()` are modelled by a fresh-name counter
    in the state (`uuidName n`); freshness with respect to pre-existing ids
    is a hypothesis where a theorem needs it.
  * The HTTP transport (axios) is modelled by an oracle giving the outcome
    of the n-th batch POST of a sync pass; a thrown error / non-2xx status
    is the `fail` outcome carrying the error message.
  * `JSON.stringify`/`JSON.parse` of a task snapshot round-trip, so queue
    item `data` is stored structurally.
  * The `Database` class (src/db/database.ts) is not part of the sources;
    its operations are modelled from the spec (section 6) and marked so.
-/

namespace OfflineSync

/-- Sync status of a task record: `pending | synced | error`. -/
inductive SyncStatus where
  | pending
  | synced
  | error
deriving DecidableEq

/-- Queue operation kind: `create | update | delete`. -/
inductive Op where
  | create
  | update
  | delete
deriving DecidableEq

/-- The `Task` record from types (id, title, description, completed,
isDeleted, createdAt, updatedAt, syncStatus, lastSyncedAt, serverId). -/
structure Task where
  id : String
  title : String
  description : String
  completed : Bool
  isDeleted : Bool
  createdAt : Nat
  updatedAt : Nat
  syncStatus : SyncStatus
  lastSyncedAt : Option Nat
  serverId : Option String
deriving DecidableEq

/-- A `SyncQueueItem`: durable pending operation. `data` holds the JSON
snapshot of the task at enqueue time (stored structurally, see header). -/
structure SyncQueueItem where
  id : String
  taskId : String
  operation : Op
  data : Task
  retryCount : Nat
  lastError : Option String
  createdAt : Nat
deriving DecidableEq

/-- A `Partial<Task>` value: each field optionally present.  Spreading
`{...task, ...updates}` is `applyUpdates` below. -/
structure TaskUpdates where
  id : Option String := none
  title : Option String := none
  description : Option String := none
  completed : Option Bool := none
  isDeleted : Option Bool := none
  createdAt : Option Nat := none
  updatedAt : Option Nat := none
  syncStatus : Option SyncStatus := none
  lastSyncedAt : Option (Option Nat) := none
  serverId : Option (Option String) := none
deriving DecidableEq

/-- JavaScript object spread `{...t, ...u}`. -/
def applyUpdates (t : Task) (u : TaskUpdates) : Task :=
  { id := u.id.getD t.id
    title := u.title.getD t.title
    description := u.description.getD t.description
    completed := u.completed.getD t.completed
    isDeleted := u.isDeleted.getD t.isDeleted
    createdAt := u.createdAt.getD t.createdAt
    updatedAt := u.updatedAt.getD t.updatedAt
    syncStatus := u.syncStatus.getD t.syncStatus
    lastSyncedAt := u.lastSyncedAt.getD t.lastSyncedAt
    serverId := u.serverId.getD t.serverId }

/-- The `serverData` of a per-item batch result (`Partial<Task>`); the
engine only ever consults its `id` field. -/
structure ServerData where
  id : Option String := none
deriving DecidableEq

/-- One per-item entry of a `BatchSyncResponse`. -/
structure BatchResult where
  taskId : String
  success : Bool
  serverData : Option ServerData := none
  error : Option String := none
deriving DecidableEq

/-- Outcome of one batch POST: the parsed response body, or a thrown
transport error (network failure, non-success status) with its message. -/
inductive TransportOutcome where
  | ok (results : List BatchResult)
  | fail (msg : String)
deriving DecidableEq

/-- One item of a `BatchSyncRequest` (`data` is the parsed snapshot). -/
structure BatchRequestItem where
  taskId : String
  operation : Op
  data : Task
deriving DecidableEq

/-- A `BatchSyncRequest` body. -/
structure BatchRequest where
  items : List BatchRequestItem
deriving DecidableEq

/-- Aggregate result of one `sync()` invocation. -/
structure SyncResult where
  successCount : Nat
  errorCount : Nat
  total : Nat
deriving DecidableEq

/-- Modelled from the spec: the durable stores behind the missing
`Database` class (section 6) — record store and operation queue. -/
structure Database where
  tasks : List Task
  queue : List SyncQueueItem
deriving DecidableEq

/-- Full client state: the stores plus the logical clock (`new Date()`)
and the fresh-uuid counter. -/
structure State where
  db : Database
  clock : Nat
  uuidCounter : Nat
deriving DecidableEq

/-- Reading `new Date()`: returns the current instant and advances time. -/
def tick (st : State) : Nat × State :=
  (st.clock, { st with clock := st.clock + 1 })

/-- The n-th generated uuid. -/
def uuidName (n : Nat) : String :=
  "uuid-" ++ toString n

namespace Db

/-- Modelled from the spec: `listPending() -> [SyncQueueItem]` — the
engine reads all pending queue items. -/
def getSyncQueueItems (st : State) : List SyncQueueItem :=
  st.db.queue

/-- Modelled from the spec: `insert(item)` — append-only queue store. -/
def insertSyncQueueItem (st : State) (item : SyncQueueItem) : State :=
  { st with db := { st.db with queue := st.db.queue ++ [item] } }

/-- Modelled from the spec: `updateRetry(id, retryCount, lastError)` —
persist retry accounting on the entry with the given operation id. -/
def updateSyncQueueItem (st : State) (id : String) (retryCount : Nat)
    (lastError : String) : State :=
  { st with db := { st.db with queue := st.db.queue.map fun q =>
      if q.id = id then { q with retryCount := retryCount, lastError := some lastError } else q } }

/-- Modelled from the spec: `deleteByTaskId(taskId)` — remove every queue
entry whose `taskId` matches. -/
def removeFromSyncQueue (st : State) (taskId : String) : State :=
  { st with db := { st.db with queue := st.db.queue.filter fun q => q.taskId != taskId } }

/-- Modelled from the spec: `getById(id) -> Task|absent`. -/
def getTaskById (st : State) (id : String) : Option Task :=
  st.db.tasks.find? fun t => t.id == id

/-- Modelled from the spec: record store `update(id, Task)`. -/
def updateTask (st : State) (id : String) (t : Task) : State :=
  { st with db := { st.db with tasks := st.db.tasks.map fun x => if x.id = id then t else x } }

/-- Modelled from the spec: insert a freshly created record. -/
def insertTask (st : State) (t : Task) : State :=
  { st with db := { st.db with tasks := st.db.tasks ++ [t] } }

/-- Modelled from the spec: list every stored record. -/
def getAllTasks (st : State) : List Task :=
  st.db.tasks

end Db

/-- `SyncService.addToSyncQueue(taskId, operation, data)`: append a new
entry with `retryCount: 0` and a fresh uuid. -/
def SyncService.addToSyncQueue (st : State) (taskId : String) (operation : Op)
    (data : Task) : State :=
  let id := uuidName st.uuidCounter
  let st1 := { st with uuidCounter := st.uuidCounter + 1 }
  let p := tick st1
  Db.insertSyncQueueItem p.2
    { id := id, taskId := taskId, operation := operation, data := data
      retryCount := 0, lastError := none, createdAt := p.1 }

/-- `TaskService.updateTask(id, updates)`: returns `null` for a missing or
soft-deleted record; otherwise spreads the updates over the record, then
forces `updatedAt: now` and `syncStatus: 'pending'`, persists the result
and enqueues an `update` operation. -/
def TaskService.updateTask (st : State) (id : String) (updates : TaskUpdates) :
    Option Task × State :=
  match Db.getTaskById st id with
  | none => (none, st)
  | some task =>
    if task.isDeleted then (none, st) else
      let p := tick st
      let updated := { applyUpdates task updates with updatedAt := p.1, syncStatus := SyncStatus.pending }
      let st2 := Db.updateTask p.2 id updated
      let st3 := SyncService.addToSyncQueue st2 id Op.update updated
      (some updated, st3)

/-- `TaskService.createTask(taskData)`: build the record with defaults
(`title || 'Untitled Task'`, `description || ''`), persist it and enqueue
a `create` operation. -/
def TaskService.createTask (st : State) (taskData : TaskUpdates) : Task × State :=
  let p := tick st
  let id := uuidName p.2.uuidCounter
  let st1 := { p.2 with uuidCounter := p.2.uuidCounter + 1 }
  let task : Task :=
    { id := id
      title := match taskData.title with
        | some s => if s = "" then "Untitled Task" else s
        | none => "Untitled Task"
      description := match taskData.description with
        | some s => s
        | none => ""
      completed := false, isDeleted := false
      createdAt := p.1, updatedAt := p.1
      syncStatus := SyncStatus.pending, lastSyncedAt := none, serverId := none }
  let st2 := Db.insertTask st1 task
  (task, SyncService.addToSyncQueue st2 task.id Op.create task)

/-- `TaskService.deleteTask(id)`: soft delete — returns false for a
missing or already-deleted record, otherwise marks `isDeleted`, resets
`updatedAt`/`syncStatus` and enqueues a `delete` operation. -/
def TaskService.deleteTask (st : State) (id : String) : Bool × State :=
  match Db.getTaskById st id with
  | none => (false, st)
  | some task =>
    if task.isDeleted then (false, st) else
      let p := tick st
      let updated := { task with isDeleted := true, updatedAt := p.1, syncStatus := SyncStatus.pending }
      let st2 := Db.updateTask p.2 id updated
      let st3 := SyncService.addToSyncQueue st2 id Op.delete updated
      (true, st3)

/-- `TaskService.getTask(id)`: `null` for a missing or soft-deleted
record. -/
def TaskService.getTask (st : State) (id : String) : Option Task :=
  match Db.getTaskById st id with
  | none => none
  | some task => if task.isDeleted then none else some task

/-- `TaskService.getAllTasks()`: every record with `!isDeleted`. -/
def TaskService.getAllTasks (st : State) : List Task :=
  (Db.getAllTasks st).filter fun t => !t.isDeleted

/-- `SyncService.updateSyncStatus(taskId, status, serverData?)`: build the
updates (`syncStatus`, `lastSyncedAt: now`, and `serverId` when
`serverData?.id` is truthy), apply them through `TaskService.updateTask`,
and on `synced` remove the task's queue entries. -/
def SyncService.updateSyncStatus (st : State) (taskId : String)
    (status : SyncStatus) (serverData : Option ServerData) : State :=
  let p := tick st
  let updates : TaskUpdates :=
    { syncStatus := some status
      lastSyncedAt := some (some p.1)
      serverId := match serverData with
        | some sd => match sd.id with
          | some s => if s = "" then none else some (some s)
          | none => none
        | none => none }
  let q := TaskService.updateTask p.2 taskId updates
  if status = SyncStatus.synced then Db.removeFromSyncQueue q.2 taskId else q.2

/-- `SyncService.handleSyncError(item, error)`: increment the item's
`retryCount`, persist it with the error message, and on exceeding the
retry ceiling (`> 3`) force the record to `error` status and delete the
task's queue entries. -/
def SyncService.handleSyncError (st : State) (item : SyncQueueItem)
    (errMessage : String) : State :=
  let rc := item.retryCount + 1
  let st1 := Db.updateSyncQueueItem st item.id rc errMessage
  if rc > 3 then
    let st2 := SyncService.updateSyncStatus st1 item.taskId SyncStatus.error none
    Db.removeFromSyncQueue st2 item.taskId
  else st1

/-- `SyncService.resolveConflict(localTask, serverTask)`: last-write-wins
on `updatedAt`; the comparison is strict greater-than on the local side.
Pure: no store access, no state. -/
def SyncService.resolveConflict (localTask serverTask : Task) : Task :=
  if localTask.updatedAt > serverTask.updatedAt then localTask else serverTask

/-- `SyncService.checkConnectivity()`: the 5-second-bounded health GET is
modelled by its outcome; a response within the timeout is `Except.ok`, any
thrown error (network failure or timeout) is `Except.error`.  The catch-all
returns false. -/
def SyncService.checkConnectivity (health : Except String Unit) : Bool :=
  match health with
  | Except.ok _ => true
  | Except.error _ => false

/-- The message of `new Error(res.error || 'Sync error')` — JavaScript
`||` treats an empty string as absent. -/
def errMessageOf (e : Option String) : String :=
  match e with
  | some s => if s = "" then "Sync error" else s
  | none => "Sync error"

/-- The request body `processBatch` builds from a batch. -/
def SyncService.processBatchRequest (items : List SyncQueueItem) : BatchRequest :=
  { items := items.map fun it =>
      { taskId := it.taskId, operation := it.operation, data := it.data } }

/-- `batch.find(it => it.taskId === res.taskId)` followed by the in-place
`item.retryCount += 1` of `handleSyncError`: returns the found element
(as passed to `handleSyncError`) and the batch array afterwards. -/
def bumpFirst : List SyncQueueItem → String → Option (SyncQueueItem × List SyncQueueItem)
  | [], _ => none
  | q :: qs, tid =>
    if q.taskId = tid then some (q, { q with retryCount := q.retryCount + 1 } :: qs)
    else match bumpFirst qs tid with
      | some p => some (p.1, q :: p.2)
      | none => none

/-- The per-item result loop of `sync()` over one transport-successful
batch: success marks synced, failure routes the matching batch item (if
any) through `handleSyncError`; returns (successes, errors, state). -/
def SyncService.processResults (st : State) (batchList : List SyncQueueItem) :
    List BatchResult → Nat × Nat × State
  | [] => (0, 0, st)
  | res :: rest =>
    if res.success then
      let st1 := SyncService.updateSyncStatus st res.taskId SyncStatus.synced res.serverData
      let out := SyncService.processResults st1 batchList rest
      (out.1 + 1, out.2.1, out.2.2)
    else
      match bumpFirst batchList res.taskId with
      | some p =>
        let st1 := SyncService.handleSyncError st p.1 (errMessageOf res.error)
        let out := SyncService.processResults st1 p.2 rest
        (out.1, out.2.1 + 1, out.2.2)
      | none =>
        let out := SyncService.processResults st batchList rest
        (out.1, out.2.1 + 1, out.2.2)

/-- The batch loop of `sync()`: the i-th batch POST gets outcome
`oracle i`; a transport failure degrades the whole batch to errors and the
loop continues. -/
def SyncService.runBatches (oracle : Nat → TransportOutcome) :
    List (List SyncQueueItem) → Nat → Nat → Nat → State → Nat × Nat × State
  | [], _, succ, err, st => (succ, err, st)
  | batch :: rest, i, succ, err, st =>
    match oracle i with
    | TransportOutcome.ok results =>
      let out := SyncService.processResults st batch results
      SyncService.runBatches oracle rest (i + 1) (succ + out.1) (err + out.2.1) out.2.2
    | TransportOutcome.fail msg =>
      let st1 := batch.foldl (fun s it => SyncService.handleSyncError s it msg) st
      SyncService.runBatches oracle rest (i + 1) succ (err + batch.length) st1

/-- Fuel-driven slicing `slice(i, i + B)`; fuel `l.length` suffices
because every step consumes at least one element. -/
def chunksAux (fuel B : Nat) (l : List SyncQueueItem) : List (List SyncQueueItem) :=
  match fuel, l with
  | 0, _ => []
  | _ + 1, [] => []
  | f + 1, x :: xs => (x :: xs.take (B - 1)) :: chunksAux f B (xs.drop (B - 1))

/-- The batches `for (let i = 0; i < n; i += batchSize)` builds.  (For
`batchSize = 0` the source loop would not terminate; the claims only
concern positive batch sizes.) -/
def chunks (B : Nat) (l : List SyncQueueItem) : List (List SyncQueueItem) :=
  chunksAux l.length B l

/-- Everything one `sync()` invocation yields: the returned aggregate, the
final state, and the sequence of batch POST bodies it issued. -/
structure SyncRun where
  result : SyncResult
  state : State
  requests : List BatchRequest
deriving DecidableEq

/-- `SyncService.sync()`: read the whole queue, slice it into batches of
the configured size `B`, process the batches sequentially, and return the
aggregate counts with `total` the queue length. -/
def SyncService.sync (B : Nat) (oracle : Nat → TransportOutcome) (st : State) : SyncRun :=
  let queueItems := Db.getSyncQueueItems st
  let batches := chunks B queueItems
  let out := SyncService.runBatches oracle batches 0 0 0 st
  { result := { successCount := out.1, errorCount := out.2.1, total := queueItems.length }
    state := out.2.2
    requests := batches.map SyncService.processBatchRequest }

end OfflineSync

/-! ### Basic facts about the batch slicing -/

namespace OfflineSync

lemma chunksAux_congr (B : Nat) : ∀ (f1 f2 : Nat) (l : List SyncQueueItem),
    l.length ≤ f1 → l.length ≤ f2 → chunksAux f1 B l = chunksAux f2 B l := by
  intro f1
  induction f1 with
  | zero =>
    intro f2 l h1 _
    have hl : l = [] := List.eq_nil_of_length_eq_zero (Nat.le_zero.mp h1)
    subst hl
    cases f2 <;> rfl
  | succ f ih =>
    intro f2 l h1 h2
    cases l with
    | nil => cases f2 <;> rfl
    | cons x xs =>
      cases f2 with
      | zero => simp at h2
      | succ f2 =>
        simp only [chunksAux, List.cons.injEq, true_and]
        apply ih
        · simp only [List.length_drop]
          simp only [List.length_cons] at h1
          omega
        · simp only [List.length_drop]
          simp only [List.length_cons] at h2
          omega

lemma chunks_cons {B : Nat} (hB : 0 < B) (x : SyncQueueItem) (xs : List SyncQueueItem) :
    chunks B (x :: xs) = (x :: xs).take B :: chunks B ((x :: xs).drop B) := by
  obtain ⟨k, rfl⟩ : ∃ k, B = k + 1 := ⟨B - 1, by omega⟩
  show chunksAux (xs.length + 1) (k + 1) (x :: xs) = _
  simp only [chunksAux, Nat.add_sub_cancel, List.take_succ_cons, List.drop_succ_cons, chunks]
  exact congrArg _ (chunksAux_congr _ _ _ _ (by simp [List.length_drop]) (le_refl _))

lemma chunksAux_join (B : Nat) : ∀ (f : Nat) (l : List SyncQueueItem),
    l.length ≤ f → (chunksAux f B l).flatten = l := by
  intro f
  induction f with
  | zero =>
    intro l h
    have hl : l = [] := List.eq_nil_of_length_eq_zero (Nat.le_zero.mp h)
    subst hl; rfl
  | succ f ih =>
    intro l h
    cases l with
    | nil => rfl
    | cons x xs =>
      simp only [chunksAux, List.flatten_cons]
      rw [ih _ (by simp only [List.length_drop]; simp only [List.length_cons] at h; omega)]
      simp [List.take_append_drop]

lemma chunks_join (B : Nat) (l : List SyncQueueItem) : (chunks B l).flatten = l :=
  chunksAux_join B l.length l (le_refl _)

lemma mem_of_mem_chunks {B : Nat} {c l : List SyncQueueItem} (hc : c ∈ chunks B l)
    {x : SyncQueueItem} (hx : x ∈ c) : x ∈ l := by
  rw [← chunks_join B l]
  exact List.mem_flatten.mpr ⟨c, hc, hx⟩

lemma chunksAux_mem_length {B : Nat} (hB : 0 < B) : ∀ (f : Nat) (l : List SyncQueueItem)
    (c : List SyncQueueItem), c ∈ chunksAux f B l → c.length ≤ B := by
  intro f
  induction f with
  | zero => intro l c h; simp [chunksAux] at h
  | succ f ih =>
    intro l c h
    cases l with
    | nil => simp [chunksAux] at h
    | cons x xs =>
      simp only [chunksAux, List.mem_cons] at h
      rcases h with h | h
      · subst h
        simp only [List.length_cons]
        have := List.length_take_le (B - 1) xs
        omega
      · exact ih _ _ h

lemma length_mem_chunks {B : Nat} (hB : 0 < B) {c l : List SyncQueueItem}
    (hc : c ∈ chunks B l) : c.length ≤ B :=
  chunksAux_mem_length hB _ _ _ hc

lemma chunks_length_aux {B : Nat} (hB : 0 < B) : ∀ (n : Nat) (l : List SyncQueueItem),
    l.length ≤ n → (chunks B l).length = (l.length + B - 1) / B := by
  intro n
  induction n with
  | zero =>
    intro l h
    have hl : l = [] := List.eq_nil_of_length_eq_zero (Nat.le_zero.mp h)
    subst hl
    simp only [chunks, chunksAux, List.length_nil]
    exact (Nat.div_eq_of_lt (by omega)).symm
  | succ n ih =>
    intro l h
    cases l with
    | nil =>
      simp only [chunks, chunksAux, List.length_nil]
      exact (Nat.div_eq_of_lt (by omega)).symm
    | cons x xs =>
      rw [chunks_cons hB, List.length_cons,
        ih _ (by simp only [List.length_drop, List.length_cons]; simp only [List.length_cons] at h; omega)]
      simp only [List.length_drop, List.length_cons]
      by_cases hc : B ≤ xs.length + 1
      · have h2 : xs.length + 1 - B + B - 1 = xs.length := by omega
        have h3 : xs.length + 1 + B - 1 = xs.length + B := by omega
        rw [h2, h3, Nat.add_div_right _ hB]
      · have h2 : xs.length + 1 - B = 0 := by omega
        have h3 : xs.length + 1 + B - 1 = xs.length + B := by omega
        rw [h2, h3, Nat.add_div_right _ hB,
          Nat.div_eq_of_lt (by omega), Nat.div_eq_of_lt (by omega)]

lemma chunks_length {B : Nat} (hB : 0 < B) (l : List SyncQueueItem) :
    (chunks B l).length = (l.length + B - 1) / B :=
  chunks_length_aux hB l.length l (le_refl _)

end OfflineSync

/-! ### Concrete scenarios used by the claim theorems -/

namespace OfflineSync

/-- A plain pending, non-deleted task record. -/
def c1task : Task :=
  { id := "t1", title := "a", description := "", completed := false, isDeleted := false
    createdAt := 0, updatedAt := 0, syncStatus := SyncStatus.pending
    lastSyncedAt := none, serverId := none }

/-- A queued `create` operation for `c1task`, never retried. -/
def c1item : SyncQueueItem :=
  { id := "q1", taskId := "t1", operation := Op.create, data := c1task
    retryCount := 0, lastError := none, createdAt := 0 }

def c1st : State :=
  { db := { tasks := [c1task], queue := [c1item] }, clock := 10, uuidCounter := 0 }

/-- The server confirms the single item, assigning a server id. -/
def c1oracle : Nat → TransportOutcome := fun _ =>
  TransportOutcome.ok [ { taskId := "t1", success := true
                          serverData := some { id := some ("srv1") }, error := none } ]

/-- Claim C1: for a queue item whose per-item batch result reports success,
`sync()` is claimed to mark the owning record `syncStatus='synced'` with
`lastSyncedAt` set and to leave no queue entry for that task.  On the
concrete run below the confirmation *is* counted as a success, the queue
*is* cleared and `lastSyncedAt` *is* set, but the record ends with
`syncStatus='pending'`, not `'synced'`: `TaskService.updateTask` spreads
the updates built by `updateSyncStatus` and then unconditionally forces
`syncStatus: 'pending'`, discarding the `'synced'` it was given.  The code
contradicts the spec's intent (sections 4.1-4.2), so the claim is recorded
as a code bug; this theorem evaluates the code at the failing input. -/
theorem claim_C1_bug :
    (SyncService.sync 10 c1oracle c1st).result
        = { successCount := 1, errorCount := 0, total := 1 } ∧
    (SyncService.sync 10 c1oracle c1st).state.db.queue = [] ∧
    (SyncService.sync 10 c1oracle c1st).state.db.tasks.map Task.lastSyncedAt = [some 10] ∧
    (SyncService.sync 10 c1oracle c1st).state.db.tasks.map Task.syncStatus
        = [SyncStatus.pending] := by
  decide

def c2task : Task :=
  { id := "t2", title := "b", description := "", completed := false, isDeleted := false
    createdAt := 0, updatedAt := 0, syncStatus := SyncStatus.pending
    lastSyncedAt := none, serverId := none }

/-- A queue item that has already failed three times. -/
def c2item : SyncQueueItem :=
  { id := "q2", taskId := "t2", operation := Op.update, data := c2task
    retryCount := 3, lastError := some ("x"), createdAt := 0 }

def c2st : State :=
  { db := { tasks := [c2task], queue := [c2item] }, clock := 0, uuidCounter := 0 }

/-- A fresh queue item (no failures yet) for the same record. -/
def c2itemb : SyncQueueItem :=
  { id := "q2b", taskId := "t2", operation := Op.update, data := c2task
    retryCount := 0, lastError := none, createdAt := 0 }

def c2stb : State :=
  { db := { tasks := [c2task], queue := [c2itemb] }, clock := 0, uuidCounter := 0 }

/-- Whole-batch transport failure. -/
def c2oracleFail : Nat → TransportOutcome := fun _ => TransportOutcome.fail ("network error")

/-- Per-item rejection with a server-supplied message. -/
def c2oracleItem : Nat → TransportOutcome := fun _ =>
  TransportOutcome.ok [ { taskId := "t2", success := false
                          serverData := none, error := some ("boom") } ]

/-- Claim C2: the retry accounting of the claim holds — each failure
increments `retryCount` by exactly 1 and persists it with the server
message (or a generic one), below the ceiling the entry stays queued, and
on the 4th failure the queue entry is deleted.  But the claimed forcing of
the owning record to `syncStatus='error'` does not happen: as in C1,
`TaskService.updateTask` overwrites the `'error'` status with `'pending'`.
This theorem evaluates the code at the failing input (first block: 4th
failure; second and third blocks: below-ceiling increments). -/
theorem claim_C2_bug :
    ((SyncService.sync 10 c2oracleFail c2st).state.db.queue = [] ∧
     (SyncService.sync 10 c2oracleFail c2st).result
        = { successCount := 0, errorCount := 1, total := 1 } ∧
     (SyncService.sync 10 c2oracleFail c2st).state.db.tasks.map Task.syncStatus
        = [SyncStatus.pending]) ∧
    (SyncService.sync 10 c2oracleFail c2stb).state.db.queue
        = [{ c2itemb with retryCount := 1, lastError := some ("network error") }] ∧
    (SyncService.sync 10 c2oracleItem c2stb).state.db.queue
        = [{ c2itemb with retryCount := 1, lastError := some ("boom") }] := by
  decide

/-- Claim C5: `resolveConflict(local, server)` returns the local record
exactly when its `updatedAt` is strictly greater, and the server record
otherwise — in particular on equal timestamps.  The embedded function is
pure (no state in, no state out) and total, so it cannot crash. -/
theorem claim_C5 (localTask serverTask : Task) :
    (serverTask.updatedAt < localTask.updatedAt →
        SyncService.resolveConflict localTask serverTask = localTask) ∧
    (localTask.updatedAt ≤ serverTask.updatedAt →
        SyncService.resolveConflict localTask serverTask = serverTask) ∧
    (localTask.updatedAt = serverTask.updatedAt →
        SyncService.resolveConflict localTask serverTask = serverTask) := by
  refine ⟨fun h => ?_, fun h => ?_, fun h => ?_⟩
  · unfold SyncService.resolveConflict
    rw [if_pos h]
  · unfold SyncService.resolveConflict
    rw [if_neg (by omega)]
  · unfold SyncService.resolveConflict
    rw [if_neg (by omega)]

def c5local : Task := { c1task with id := "l", updatedAt := 5 }

def c5server : Task := { c1task with id := "s", updatedAt := 3 }

theorem claim_C5_witness :
    SyncService.resolveConflict c5local c5server = c5local ∧
    SyncService.resolveConflict c5server c5local = c5local ∧
    SyncService.resolveConflict c5local c5local = c5local :=
  ⟨(claim_C5 c5local c5server).1 (by decide),
   (claim_C5 c5server c5local).2.1 (by decide),
   (claim_C5 c5local c5local).2.2 rfl⟩

/-- Claim C7: `checkConnectivity()` is total (always returns a boolean,
never throws): it returns true exactly when the bounded health request
succeeded, and false exactly when it errored — any thrown error,
including a timeout of the 5-second bound, is the `error` outcome. -/
theorem claim_C7 (health : Except String Unit) :
    (SyncService.checkConnectivity health = true ↔ health = Except.ok ()) ∧
    (SyncService.checkConnectivity health = false ↔ ∃ e, health = Except.error e) := by
  cases health with
  | ok u => cases u; simp [SyncService.checkConnectivity]
  | error e => simp [SyncService.checkConnectivity]

/-- Claim C3: one `sync()` pass over a queue of size N with positive batch
size B issues exactly ceil(N/B) = (N + B - 1) / B batch POSTs, each with
at most B items, and reports `total = N`. -/
theorem claim_C3 (B : Nat) (hB : 0 < B) (oracle : Nat → TransportOutcome) (st : State) :
    (SyncService.sync B oracle st).requests.length
        = ((Db.getSyncQueueItems st).length + B - 1) / B ∧
    (∀ req ∈ (SyncService.sync B oracle st).requests, req.items.length ≤ B) ∧
    (SyncService.sync B oracle st).result.total = (Db.getSyncQueueItems st).length := by
  refine ⟨?_, ?_, rfl⟩
  · simp only [SyncService.sync, List.length_map]
    exact chunks_length hB _
  · intro req hreq
    simp only [SyncService.sync, List.mem_map] at hreq
    obtain ⟨c, hc, rfl⟩ := hreq
    simp only [SyncService.processBatchRequest, List.length_map]
    exact length_mem_chunks hB hc

/-- 25 distinct queue items for the batching witness. -/
def c3st : State :=
  { db := { tasks := []
            queue := (List.range 25).map fun n =>
              { id := toString n, taskId := toString n, operation := Op.create
                data := c1task, retryCount := 0, lastError := none, createdAt := 0 } }
    clock := 0, uuidCounter := 0 }

theorem claim_C3_witness :
    (SyncService.sync 10 c2oracleFail c3st).requests.length
        = ((Db.getSyncQueueItems c3st).length + 10 - 1) / 10 ∧
    (SyncService.sync 10 c2oracleFail c3st).result.total
        = (Db.getSyncQueueItems c3st).length :=
  ⟨(claim_C3 10 (by decide) c2oracleFail c3st).1,
   (claim_C3 10 (by decide) c2oracleFail c3st).2.2⟩

end OfflineSync

/-! ### The transport-failure path of the batch loop -/

namespace OfflineSync

/-- The per-entry effect of `handleSyncError(item, ...)` on the queue when
it persists the incremented retry count. -/
def updFn (it : SyncQueueItem) (msg : String) (q : SyncQueueItem) : SyncQueueItem :=
  if q.id = it.id then { q with retryCount := it.retryCount + 1, lastError := some msg } else q

lemma handleSyncError_below (st : State) (it : SyncQueueItem) (msg : String)
    (h : it.retryCount + 1 ≤ 3) :
    SyncService.handleSyncError st it msg
      = { st with db := { st.db with queue := st.db.queue.map (updFn it msg) } } := by
  simp only [SyncService.handleSyncError]
  rw [if_neg (by omega)]
  rfl

lemma foldl_handle_below (msg : String) : ∀ (todo : List SyncQueueItem) (st : State),
    (∀ it ∈ todo, it.retryCount ≤ 2) →
    todo.foldl (fun s it => SyncService.handleSyncError s it msg) st
      = { st with db := { st.db with
            queue := todo.foldl (fun cur it => cur.map (updFn it msg)) st.db.queue } } := by
  intro todo
  induction todo with
  | nil => intro st _; rfl
  | cons it rest ih =>
    intro st h
    simp only [List.foldl_cons]
    rw [handleSyncError_below st it msg (by have := h it (by simp); omega),
      ih _ (fun x hx => h x (by simp [hx]))]

lemma find?_self_of_nodup : ∀ (l : List SyncQueueItem),
    (l.map SyncQueueItem.id).Nodup → ∀ q ∈ l, l.find? (fun x => x.id == q.id) = some q := by
  intro l
  induction l with
  | nil => intro _ q hq; simp at hq
  | cons a rest ih =>
    intro h q hq
    rw [List.map_cons] at h
    have hn := List.nodup_cons.mp h
    rcases List.mem_cons.mp hq with rfl | hq2
    · rw [List.find?_cons, show (q.id == q.id) = true from by simp]
    · have hne : (a.id == q.id) = false := by
        simp only [beq_eq_false_iff_ne, ne_eq]
        intro he
        exact hn.1 (he ▸ List.mem_map_of_mem SyncQueueItem.id hq2)
      rw [List.find?_cons, hne]
      exact ih hn.2 q hq2

lemma foldl_updFn_eq (msg : String) : ∀ (todo cur : List SyncQueueItem),
    (todo.map SyncQueueItem.id).Nodup →
    todo.foldl (fun cur2 it => cur2.map (updFn it msg)) cur
      = cur.map (fun q =>
          match todo.find? (fun it => it.id == q.id) with
          | some it => { q with retryCount := it.retryCount + 1, lastError := some msg }
          | none => q) := by
  intro todo
  induction todo with
  | nil =>
    intro cur _
    simp [List.find?]
  | cons it rest ih =>
    intro cur h
    rw [List.map_cons] at h
    have hn := List.nodup_cons.mp h
    simp only [List.foldl_cons]
    rw [ih _ hn.2, List.map_map]
    apply List.map_congr_left
    intro q _
    simp only [Function.comp_apply]
    by_cases hid : it.id = q.id
    · rw [List.find?_cons, show (it.id == q.id) = true from by simp [hid]]
      have hq : updFn it msg q = { q with retryCount := it.retryCount + 1, lastError := some msg } := by
        unfold updFn
        rw [if_pos hid.symm]
      rw [hq]
      have hnone : rest.find?
          (fun x => x.id == ({ q with retryCount := it.retryCount + 1, lastError := some msg } : SyncQueueItem).id) = none := by
        apply List.find?_eq_none.mpr
        intro x hx
        simp only [beq_iff_eq]
        intro hxq
        have hxq2 : x.id = q.id := hxq
        have hxit : x.id = it.id := hxq2.trans hid.symm
        exact hn.1 (hxit ▸ List.mem_map_of_mem SyncQueueItem.id hx)
      simp [hnone]
    · rw [List.find?_cons, show (it.id == q.id) = false from by simp [hid]]
      have hq : updFn it msg q = q := by
        unfold updFn
        rw [if_neg (fun h2 => hid h2.symm)]
      rw [hq]

lemma runBatches_fail (msg : String) (oracle : Nat → TransportOutcome)
    (ho : ∀ i, oracle i = TransportOutcome.fail msg) :
    ∀ (batches : List (List SyncQueueItem)) (i succ err : Nat) (st : State),
    SyncService.runBatches oracle batches i succ err st
      = (succ, err + (batches.map List.length).sum,
         batches.foldl
           (fun s b => b.foldl (fun s2 it => SyncService.handleSyncError s2 it msg) s) st) := by
  intro batches
  induction batches with
  | nil => intro i s e st; simp [SyncService.runBatches]
  | cons b rest ih =>
    intro i s e st
    simp only [SyncService.runBatches, ho i]
    rw [ih]
    simp [Nat.add_assoc]

lemma foldl_batches_flatten (msg : String) : ∀ (batches : List (List SyncQueueItem)) (st : State),
    batches.foldl (fun s b => b.foldl (fun s2 it => SyncService.handleSyncError s2 it msg) s) st
      = batches.flatten.foldl (fun s it => SyncService.handleSyncError s it msg) st := by
  intro batches
  induction batches with
  | nil => intro st; rfl
  | cons b rest ih =>
    intro st
    simp only [List.foldl_cons, List.flatten_cons, List.foldl_append]
    exact ih _

/-- Claim C4: when the transport fails as a whole (every batch POST throws
with message `msg`), every queue item is treated as a failure: its
persisted `retryCount` goes up by exactly 1 with `lastError = msg`, the
invocation reports `errorCount = N` with no successes, it keeps issuing
the remaining batch calls (all ceil(N/B) requests go out), and no record
is touched.  Hypotheses: positive batch size, distinct queue-entry ids,
and all entries below the retry ceiling (so that the failure does not
additionally trigger the abandonment path, which is claim C2/C10's
territory). -/
theorem claim_C4 (B : Nat) (msg : String) (st : State) (oracle : Nat → TransportOutcome)
    (hB : 0 < B)
    (ho : ∀ i, oracle i = TransportOutcome.fail msg)
    (hids : (st.db.queue.map SyncQueueItem.id).Nodup)
    (hrc : ∀ it ∈ st.db.queue, it.retryCount ≤ 2) :
    (SyncService.sync B oracle st).result
        = { successCount := 0, errorCount := st.db.queue.length, total := st.db.queue.length } ∧
    (SyncService.sync B oracle st).state.db.queue
        = st.db.queue.map (fun q =>
            { q with retryCount := q.retryCount + 1, lastError := some msg }) ∧
    (SyncService.sync B oracle st).state.db.tasks = st.db.tasks ∧
    (SyncService.sync B oracle st).requests.length = (st.db.queue.length + B - 1) / B := by
  have hsum : ((chunks B st.db.queue).map List.length).sum = st.db.queue.length := by
    rw [← List.length_flatten, chunks_join]
  have hfold : (chunks B st.db.queue).foldl
      (fun s b => b.foldl (fun s2 it => SyncService.handleSyncError s2 it msg) s) st
      = { st with db := { st.db with queue := st.db.queue.map (fun q =>
          { q with retryCount := q.retryCount + 1, lastError := some msg }) } } := by
    rw [foldl_batches_flatten, chunks_join, foldl_handle_below msg _ _ hrc,
      foldl_updFn_eq msg _ _ hids]
    have hlist : st.db.queue.map (fun q =>
          match st.db.queue.find? (fun it => it.id == q.id) with
          | some it => { q with retryCount := it.retryCount + 1, lastError := some msg }
          | none => q)
        = st.db.queue.map (fun q =>
            { q with retryCount := q.retryCount + 1, lastError := some msg }) := by
      apply List.map_congr_left
      intro q hq
      rw [find?_self_of_nodup _ hids q hq]
    rw [hlist]
  have hrun := runBatches_fail msg oracle ho (chunks B st.db.queue) 0 0 0 st
  refine ⟨?_, ?_, ?_, ?_⟩
  · show ({ successCount := (SyncService.runBatches oracle (chunks B st.db.queue) 0 0 0 st).1
            errorCount := (SyncService.runBatches oracle (chunks B st.db.queue) 0 0 0 st).2.1
            total := st.db.queue.length } : SyncResult) = _
    rw [hrun]
    simp [hsum]
  · show (SyncService.runBatches oracle (chunks B st.db.queue) 0 0 0 st).2.2.db.queue = _
    rw [hrun, hfold]
  · show (SyncService.runBatches oracle (chunks B st.db.queue) 0 0 0 st).2.2.db.tasks = _
    rw [hrun, hfold]
  · show ((chunks B st.db.queue).map SyncService.processBatchRequest).length = _
    rw [List.length_map]
    exact chunks_length hB _

/-- Two fresh items under distinct ids, batch size 1: two failing batches. -/
def c4st : State :=
  { db := { tasks := [c2task]
            queue := [{ id := "qa", taskId := "t2", operation := Op.create
                        data := c2task, retryCount := 0, lastError := none, createdAt := 0 },
                      { id := "qb", taskId := "t2", operation := Op.update
                        data := c2task, retryCount := 1, lastError := none, createdAt := 0 }] }
    clock := 0, uuidCounter := 0 }

theorem claim_C4_witness :
    (SyncService.sync 1 c2oracleFail c4st).result
        = { successCount := 0, errorCount := 2, total := 2 } ∧
    (SyncService.sync 1 c2oracleFail c4st).requests.length = 2 := by
  have h := claim_C4 1 ("network error") c4st c2oracleFail (by decide) (fun i => rfl)
    (by decide) (by decide)
  exact ⟨h.1, h.2.2.2⟩

end OfflineSync

/-! ### Status propagation and queue removal -/

namespace OfflineSync

lemma mem_removeFromSyncQueue {st : State} {tid : String} {q : SyncQueueItem} :
    q ∈ (Db.removeFromSyncQueue st tid).db.queue ↔ q ∈ st.db.queue ∧ q.taskId ≠ tid := by
  simp [Db.removeFromSyncQueue, List.mem_filter, bne_iff_ne]

lemma updateTask_queue_ext (st : State) (id : String) (u : TaskUpdates) :
    ∃ ext, (TaskService.updateTask st id u).2.db.queue = st.db.queue ++ ext := by
  simp only [TaskService.updateTask]
  rcases hf : Db.getTaskById st id with _ | task
  · simp [hf]
  · simp only [hf]
    by_cases hd : task.isDeleted
    · rw [if_pos hd]
      exact ⟨[], by simp⟩
    · rw [if_neg hd]
      exact ⟨_, rfl⟩

lemma updateTask_queue_mem (st : State) (id : String) (u : TaskUpdates) {q : SyncQueueItem}
    (hq : q ∈ st.db.queue) : q ∈ (TaskService.updateTask st id u).2.db.queue := by
  obtain ⟨ext, hext⟩ := updateTask_queue_ext st id u
  rw [hext]
  exact List.mem_append.mpr (Or.inl hq)

/-- Equation for `TaskService.updateTask` on an existing, live record. -/
lemma TaskService.updateTask_found (st : State) (id : String) (u : TaskUpdates) (task : Task)
    (hfind : Db.getTaskById st id = some task) (hdel : task.isDeleted = false) :
    TaskService.updateTask st id u
      = (some ({ applyUpdates task u with updatedAt := st.clock, syncStatus := SyncStatus.pending }),
         SyncService.addToSyncQueue
           (Db.updateTask (tick st).2 id
             ({ applyUpdates task u with updatedAt := st.clock, syncStatus := SyncStatus.pending }))
           id Op.update
           ({ applyUpdates task u with updatedAt := st.clock, syncStatus := SyncStatus.pending })) := by
  simp only [TaskService.updateTask, hfind]
  rw [if_neg (by simp [hdel])]
  rfl

/-- Equation for `TaskService.deleteTask` on an existing, live record. -/
lemma TaskService.deleteTask_found (st : State) (id : String) (task : Task)
    (hfind : Db.getTaskById st id = some task) (hdel : task.isDeleted = false) :
    TaskService.deleteTask st id
      = (true,
         SyncService.addToSyncQueue
           (Db.updateTask (tick st).2 id
             ({ task with isDeleted := true, updatedAt := st.clock, syncStatus := SyncStatus.pending }))
           id Op.delete
           ({ task with isDeleted := true, updatedAt := st.clock, syncStatus := SyncStatus.pending })) := by
  simp only [TaskService.deleteTask, hfind]
  rw [if_neg (by simp [hdel])]
  rfl

lemma find?_id_map_update (l : List Task) (tid : String) (upd : Task) (hupd : upd.id = tid) :
    ∀ (t : Task), l.find? (fun x => x.id == tid) = some t →
    (l.map fun x => if x.id = tid then upd else x).find? (fun x => x.id == tid) = some upd := by
  induction l with
  | nil => intro t h; simp [List.find?] at h
  | cons a rest ih =>
    intro t h
    by_cases ha : a.id = tid
    · rw [List.map_cons, if_pos ha, List.find?_cons, show (upd.id == tid) = true from by simp [hupd]]
    · rw [List.find?_cons, show (a.id == tid) = false from by simp [ha]] at h
      rw [List.map_cons, if_neg ha, List.find?_cons, show (a.id == tid) = false from by simp [ha]]
      exact ih t h

lemma updateSyncStatus_error_queue_ext (st : State) (tid : String) (sd : Option ServerData) :
    ∃ ext, (SyncService.updateSyncStatus st tid SyncStatus.error sd).db.queue
      = st.db.queue ++ ext := by
  simp only [SyncService.updateSyncStatus]
  rw [if_neg (fun hcon => SyncStatus.noConfusion hcon)]
  exact updateTask_queue_ext _ tid _

lemma updateSyncStatus_synced_not_mem (st : State) (tid : String) (sd : Option ServerData) :
    ∀ q ∈ (SyncService.updateSyncStatus st tid SyncStatus.synced sd).db.queue,
      q.taskId ≠ tid := by
  intro q hq
  simp only [SyncService.updateSyncStatus] at hq
  rw [if_pos trivial] at hq
  exact (mem_removeFromSyncQueue.mp hq).2

lemma updateSyncStatus_synced_keep (st : State) (tid : String) (sd : Option ServerData) :
    ∀ q ∈ st.db.queue, q.taskId ≠ tid →
      q ∈ (SyncService.updateSyncStatus st tid SyncStatus.synced sd).db.queue := by
  intro q hq hne
  simp only [SyncService.updateSyncStatus]
  rw [if_pos trivial]
  exact mem_removeFromSyncQueue.mpr ⟨updateTask_queue_mem _ tid _ hq, hne⟩

lemma handleSyncError_exceed_not_mem (st : State) (it : SyncQueueItem) (msg : String)
    (h : 3 ≤ it.retryCount) :
    ∀ q ∈ (SyncService.handleSyncError st it msg).db.queue, q.taskId ≠ it.taskId := by
  intro q hq
  simp only [SyncService.handleSyncError] at hq
  rw [if_pos (by omega)] at hq
  exact (mem_removeFromSyncQueue.mp hq).2

lemma handleSyncError_exceed_keep (st : State) (it : SyncQueueItem) (msg : String)
    (h : 3 ≤ it.retryCount) :
    ∀ q ∈ st.db.queue, q.taskId ≠ it.taskId → q.id ≠ it.id →
      q ∈ (SyncService.handleSyncError st it msg).db.queue := by
  intro q hq hta hid
  simp only [SyncService.handleSyncError]
  rw [if_pos (by omega)]
  apply mem_removeFromSyncQueue.mpr
  refine ⟨?_, hta⟩
  have h1 : q ∈ (Db.updateSyncQueueItem st it.id (it.retryCount + 1) msg).db.queue :=
    List.mem_map.mpr ⟨q, hq, by simp [hid]⟩
  obtain ⟨ext, hext⟩ := updateSyncStatus_error_queue_ext
    (Db.updateSyncQueueItem st it.id (it.retryCount + 1) msg) it.taskId none
  rw [hext]
  exact List.mem_append.mpr (Or.inl h1)

end OfflineSync

namespace OfflineSync

/-- Claim C8: soft-deleted records are invisible to the normal reads
(`getTask` returns null for them, `getAllTasks` filters them out), and
both record-service mutations (`updateTask`, soft `deleteTask`) store a
record with `syncStatus = pending` and `updatedAt = now` (the clock value
read during the call). -/
theorem claim_C8 :
    (∀ st id t, TaskService.getTask st id = some t → t.isDeleted = false) ∧
    (∀ st t, t ∈ TaskService.getAllTasks st → t.isDeleted = false) ∧
    (∀ st id u t st2, TaskService.updateTask st id u = (some t, st2) →
        t.syncStatus = SyncStatus.pending ∧ t.updatedAt = st.clock ∧
        st2.db.tasks = (st.db.tasks.map fun x => if x.id = id then t else x)) ∧
    (∀ st id st2, TaskService.deleteTask st id = (true, st2) →
        ∃ t, st2.db.tasks = (st.db.tasks.map fun x => if x.id = id then t else x) ∧
          t.isDeleted = true ∧ t.syncStatus = SyncStatus.pending ∧ t.updatedAt = st.clock) := by
  refine ⟨?_, ?_, ?_, ?_⟩
  · intro st id t h
    rcases hf : Db.getTaskById st id with _ | task
    · simp only [TaskService.getTask, hf] at h
      exact absurd h (by simp)
    · simp only [TaskService.getTask, hf] at h
      by_cases hd : task.isDeleted
      · rw [if_pos hd] at h
        simp at h
      · rw [if_neg hd] at h
        obtain rfl := Option.some.inj h
        simpa using hd
  · intro st t ht
    simp only [TaskService.getAllTasks, Db.getAllTasks, List.mem_filter] at ht
    simpa using ht.2
  · intro st id u t st2 h
    rcases hf : Db.getTaskById st id with _ | task
    · simp only [TaskService.updateTask, hf] at h
      exact absurd (congrArg Prod.fst h) (by simp)
    · by_cases hd : task.isDeleted
      · simp only [TaskService.updateTask, hf, if_pos hd] at h
        exact absurd (congrArg Prod.fst h) (by simp)
      · rw [TaskService.updateTask_found st id u task hf (by simpa using hd)] at h
        rw [Prod.mk.injEq] at h
        obtain ⟨h1, h2⟩ := h
        obtain rfl := Option.some.inj h1
        subst h2
        exact ⟨rfl, rfl, rfl⟩
  · intro st id st2 h
    rcases hf : Db.getTaskById st id with _ | task
    · simp only [TaskService.deleteTask, hf] at h
      exact absurd (congrArg Prod.fst h) (by simp)
    · by_cases hd : task.isDeleted
      · simp only [TaskService.deleteTask, hf, if_pos hd] at h
        exact absurd (congrArg Prod.fst h) (by simp)
      · rw [TaskService.deleteTask_found st id task hf (by simpa using hd)] at h
        rw [Prod.mk.injEq] at h
        obtain ⟨-, h2⟩ := h
        subst h2
        exact ⟨_, rfl, rfl, rfl, rfl⟩

def c8st : State :=
  { db := { tasks := [c1task], queue := [] }, clock := 5, uuidCounter := 0 }

theorem claim_C8_witness :
    c1task.isDeleted = false ∧
    ((TaskService.updateTask c8st ("t1") {}).1.getD c1task).syncStatus = SyncStatus.pending ∧
    (∃ t, (TaskService.deleteTask c8st ("t1")).2.db.tasks
        = (c8st.db.tasks.map fun x => if x.id = "t1" then t else x) ∧
      t.isDeleted = true ∧ t.syncStatus = SyncStatus.pending ∧ t.updatedAt = c8st.clock) :=
  ⟨claim_C8.1 c8st ("t1") c1task (by decide),
   (claim_C8.2.2.1 c8st ("t1") {} ((TaskService.updateTask c8st ("t1") {}).1.getD c1task)
      ((TaskService.updateTask c8st ("t1") {}).2) (by decide)).1,
   claim_C8.2.2.2 c8st ("t1") ((TaskService.deleteTask c8st ("t1")).2) (by decide)⟩

/-- Claim C9: `TaskService.updateTask` ignores whatever `syncStatus` or
`updatedAt` the caller put in the updates — the stored record always gets
`syncStatus = pending` and `updatedAt = now` — and it always enqueues a
fresh `update` operation; this also happens when it is invoked from
`SyncService.updateSyncStatus` (shown here for the `error` propagation,
where the freshly enqueued entry survives and the record stays pending). -/
theorem claim_C9 :
    (∀ st id u t st2, TaskService.updateTask st id u = (some t, st2) →
        t.syncStatus = SyncStatus.pending ∧ t.updatedAt = st.clock ∧
        ∃ qi, st2.db.queue = st.db.queue ++ [qi] ∧ qi.taskId = id ∧
          qi.operation = Op.update ∧ qi.retryCount = 0 ∧ qi.data = t) ∧
    (∀ st tid sd task, Db.getTaskById st tid = some task → task.isDeleted = false →
        (∃ t2, Db.getTaskById (SyncService.updateSyncStatus st tid SyncStatus.error sd) tid
            = some t2 ∧ t2.syncStatus = SyncStatus.pending) ∧
        ∃ qi, (SyncService.updateSyncStatus st tid SyncStatus.error sd).db.queue
            = st.db.queue ++ [qi] ∧ qi.operation = Op.update ∧ qi.taskId = tid) := by
  constructor
  · intro st id u t st2 h
    rcases hf : Db.getTaskById st id with _ | task
    · simp only [TaskService.updateTask, hf] at h
      exact absurd (congrArg Prod.fst h) (by simp)
    · by_cases hd : task.isDeleted
      · simp only [TaskService.updateTask, hf, if_pos hd] at h
        exact absurd (congrArg Prod.fst h) (by simp)
      · rw [TaskService.updateTask_found st id u task hf (by simpa using hd)] at h
        rw [Prod.mk.injEq] at h
        obtain ⟨h1, h2⟩ := h
        obtain rfl := Option.some.inj h1
        subst h2
        exact ⟨rfl, rfl, _, rfl, rfl, rfl, rfl, rfl⟩
  · intro st tid sd task hfind hdel
    have htid : task.id = tid := by
      have h2 := List.find?_some hfind
      simpa using h2
    have hfind2 : Db.getTaskById (tick st).2 tid = some task := hfind
    simp only [SyncService.updateSyncStatus]
    rw [if_neg (fun hcon => SyncStatus.noConfusion hcon)]
    rw [TaskService.updateTask_found ((tick st).2) tid _ task hfind2 hdel]
    constructor
    · exact ⟨_, find?_id_map_update st.db.tasks tid _ htid task hfind, rfl⟩
    · exact ⟨_, rfl, rfl, rfl⟩

def c9upd : TaskUpdates := { syncStatus := some SyncStatus.synced, updatedAt := some 999 }

theorem claim_C9_witness :
    ((TaskService.updateTask c8st ("t1") c9upd).1.getD c1task).syncStatus = SyncStatus.pending ∧
    ((TaskService.updateTask c8st ("t1") c9upd).1.getD c1task).updatedAt = c8st.clock ∧
    (∃ t2, Db.getTaskById (SyncService.updateSyncStatus c8st ("t1") SyncStatus.error none) ("t1")
        = some t2 ∧ t2.syncStatus = SyncStatus.pending) :=
  ⟨(claim_C9.1 c8st ("t1") c9upd ((TaskService.updateTask c8st ("t1") c9upd).1.getD c1task)
      ((TaskService.updateTask c8st ("t1") c9upd).2) (by decide)).1,
   (claim_C9.1 c8st ("t1") c9upd ((TaskService.updateTask c8st ("t1") c9upd).1.getD c1task)
      ((TaskService.updateTask c8st ("t1") c9upd).2) (by decide)).2.1,
   (claim_C9.2 c8st ("t1") none c1task (by decide) (by decide)).1⟩

/-- Claim C10: queue removal is keyed by `taskId`.  When a confirmation
(`updateSyncStatus(..., 'synced', ...)`) or a retry-ceiling exhaustion
(`handleSyncError` with `retryCount ≥ 3` before the increment) fires for
one queue item, every queued operation with that `taskId` is gone from the
resulting queue — not only the confirmed/exhausted entry — while entries
for other tasks survive. -/
theorem claim_C10 :
    (∀ st tid sd,
      (∀ q ∈ (SyncService.updateSyncStatus st tid SyncStatus.synced sd).db.queue,
          q.taskId ≠ tid) ∧
      (∀ q ∈ st.db.queue, q.taskId ≠ tid →
          q ∈ (SyncService.updateSyncStatus st tid SyncStatus.synced sd).db.queue)) ∧
    (∀ st it msg, 3 ≤ it.retryCount →
      (∀ q ∈ (SyncService.handleSyncError st it msg).db.queue, q.taskId ≠ it.taskId) ∧
      (∀ q ∈ st.db.queue, q.taskId ≠ it.taskId → q.id ≠ it.id →
          q ∈ (SyncService.handleSyncError st it msg).db.queue)) :=
  ⟨fun st tid sd =>
      ⟨updateSyncStatus_synced_not_mem st tid sd, updateSyncStatus_synced_keep st tid sd⟩,
   fun st it msg h =>
      ⟨handleSyncError_exceed_not_mem st it msg h, handleSyncError_exceed_keep st it msg h⟩⟩

/-- An exhausted item for task `ta` alongside an untouched item for `tb`. -/
def c10qx : SyncQueueItem :=
  { id := "qx", taskId := "ta", operation := Op.create, data := c1task
    retryCount := 3, lastError := none, createdAt := 0 }

def c10qy : SyncQueueItem :=
  { id := "qy", taskId := "tb", operation := Op.update, data := c1task
    retryCount := 0, lastError := none, createdAt := 0 }

def c10st : State :=
  { db := { tasks := [], queue := [c10qx, c10qy] }, clock := 0, uuidCounter := 0 }

theorem claim_C10_witness :
    c10qy ∈ (SyncService.updateSyncStatus c10st ("ta") SyncStatus.synced none).db.queue ∧
    c10qy ∈ (SyncService.handleSyncError c10st c10qx ("E")).db.queue :=
  ⟨(claim_C10.1 c10st ("ta") none).2 c10qy (by decide) (by decide),
   (claim_C10.2 c10st c10qx ("E") (by decide)).2 c10qy (by decide) (by decide) (by decide)⟩

end OfflineSync

/-! ### Retry-count monotonicity across a sync pass -/

namespace OfflineSync

/-- Every entry of `cur` whose id is that of an entry of `orig` carries at
least the original retry count. -/
def RcMono (orig cur : List SyncQueueItem) : Prop :=
  ∀ q2 ∈ cur, ∀ q ∈ orig, q2.id = q.id → q.retryCount ≤ q2.retryCount

/-- No pre-existing entry uses an id the uuid generator could produce. -/
def FreshIds (orig : List SyncQueueItem) : Prop :=
  ∀ q ∈ orig, ∀ n, q.id ≠ uuidName n

/-- An in-memory item carries at least the retry count that the original
queue records under its id. -/
def OkItem (orig : List SyncQueueItem) (it : SyncQueueItem) : Prop :=
  ∀ q ∈ orig, it.id = q.id → q.retryCount ≤ it.retryCount

lemma rcMono_of_nodup {orig : List SyncQueueItem}
    (h : (orig.map SyncQueueItem.id).Nodup) : RcMono orig orig := by
  intro q2 h2 q hq hid
  have he : q2 = q := List.inj_on_of_nodup_map h h2 hq hid
  subst he
  exact le_refl _

lemma okItem_of_mem {orig : List SyncQueueItem} {x : SyncQueueItem}
    (h : (orig.map SyncQueueItem.id).Nodup) (hx : x ∈ orig) : OkItem orig x := by
  intro q hq hid
  have he : x = q := List.inj_on_of_nodup_map h hx hq hid
  exact le_of_eq (congrArg SyncQueueItem.retryCount he.symm)

lemma okItem_bump {orig : List SyncQueueItem} {it : SyncQueueItem} (h : OkItem orig it) :
    OkItem orig { it with retryCount := it.retryCount + 1 } := by
  intro q hq hid
  exact le_trans (h q hq hid) (Nat.le_succ _)

lemma addToSyncQueue_queue (st : State) (tid : String) (op : Op) (d : Task) :
    (SyncService.addToSyncQueue st tid op d).db.queue
      = st.db.queue ++ [{ id := uuidName st.uuidCounter, taskId := tid, operation := op
                          data := d, retryCount := 0, lastError := none, createdAt := st.clock }] :=
  rfl

lemma rcMono_addToSyncQueue {orig : List SyncQueueItem} (hF : FreshIds orig) (st : State)
    (tid : String) (op : Op) (d : Task) (h : RcMono orig st.db.queue) :
    RcMono orig (SyncService.addToSyncQueue st tid op d).db.queue := by
  intro q2 hq2 q hq hid
  rw [addToSyncQueue_queue] at hq2
  rcases List.mem_append.mp hq2 with h1 | h1
  · exact h q2 h1 q hq hid
  · rw [List.mem_singleton] at h1
    subst h1
    exact absurd hid.symm (hF q hq st.uuidCounter)

lemma rcMono_remove {orig : List SyncQueueItem} (st : State) (tid : String)
    (h : RcMono orig st.db.queue) :
    RcMono orig (Db.removeFromSyncQueue st tid).db.queue := by
  intro q2 hq2
  exact h q2 (List.mem_filter.mp hq2).1

lemma rcMono_map_upd {orig : List SyncQueueItem} {it : SyncQueueItem} {msg : String}
    (hit : OkItem orig it) {cur : List SyncQueueItem} (h : RcMono orig cur) :
    RcMono orig (cur.map (updFn it msg)) := by
  intro q2 hq2 q hq hid
  obtain ⟨q0, hq0, rfl⟩ := List.mem_map.mp hq2
  by_cases h0 : q0.id = it.id
  · have he : updFn it msg q0
        = { q0 with retryCount := it.retryCount + 1, lastError := some msg } := by
      unfold updFn
      rw [if_pos h0]
    rw [he] at hid ⊢
    have hid2 : q0.id = q.id := hid
    exact le_trans (hit q hq (h0.symm.trans hid2)) (Nat.le_succ _)
  · have he : updFn it msg q0 = q0 := by
      unfold updFn
      rw [if_neg h0]
    rw [he] at hid ⊢
    exact h q0 hq0 q hq hid

lemma rcMono_updateSyncQueueItem {orig : List SyncQueueItem} (st : State)
    (it : SyncQueueItem) (msg : String) (hit : OkItem orig it) (h : RcMono orig st.db.queue) :
    RcMono orig (Db.updateSyncQueueItem st it.id (it.retryCount + 1) msg).db.queue :=
  rcMono_map_upd hit h

lemma rcMono_TaskService_updateTask {orig : List SyncQueueItem} (hF : FreshIds orig)
    (st : State) (id : String) (u : TaskUpdates) (h : RcMono orig st.db.queue) :
    RcMono orig (TaskService.updateTask st id u).2.db.queue := by
  rcases hf : Db.getTaskById st id with _ | task
  · simp only [TaskService.updateTask, hf]
    exact h
  · by_cases hd : task.isDeleted
    · simp only [TaskService.updateTask, hf, if_pos hd]
      exact h
    · simp only [TaskService.updateTask, hf, if_neg hd]
      exact rcMono_addToSyncQueue hF _ id Op.update _ h

lemma rcMono_updateSyncStatus {orig : List SyncQueueItem} (hF : FreshIds orig)
    (st : State) (tid : String) (status : SyncStatus) (sd : Option ServerData)
    (h : RcMono orig st.db.queue) :
    RcMono orig (SyncService.updateSyncStatus st tid status sd).db.queue := by
  simp only [SyncService.updateSyncStatus]
  by_cases hs : status = SyncStatus.synced
  · rw [if_pos hs]
    exact rcMono_remove _ tid (rcMono_TaskService_updateTask hF _ tid _ h)
  · rw [if_neg hs]
    exact rcMono_TaskService_updateTask hF _ tid _ h

lemma rcMono_handleSyncError {orig : List SyncQueueItem} (hF : FreshIds orig)
    (st : State) (it : SyncQueueItem) (msg : String) (hit : OkItem orig it)
    (h : RcMono orig st.db.queue) :
    RcMono orig (SyncService.handleSyncError st it msg).db.queue := by
  simp only [SyncService.handleSyncError]
  by_cases hc : it.retryCount + 1 > 3
  · rw [if_pos hc]
    exact rcMono_remove _ _
      (rcMono_updateSyncStatus hF _ _ _ _ (rcMono_updateSyncQueueItem st it msg hit h))
  · rw [if_neg hc]
    exact rcMono_updateSyncQueueItem st it msg hit h

lemma rcMono_foldl_handle {orig : List SyncQueueItem} (hF : FreshIds orig) (msg : String) :
    ∀ (todo : List SyncQueueItem) (st : State), (∀ x ∈ todo, OkItem orig x) →
      RcMono orig st.db.queue →
      RcMono orig ((todo.foldl (fun s it => SyncService.handleSyncError s it msg) st)).db.queue := by
  intro todo
  induction todo with
  | nil => intro st _ h; exact h
  | cons it rest ih =>
    intro st hok h
    simp only [List.foldl_cons]
    exact ih _ (fun x hx => hok x (by simp [hx]))
      (rcMono_handleSyncError hF st it msg (hok it (by simp)) h)

lemma bumpFirst_spec : ∀ (l : List SyncQueueItem) (tid : String)
    (p : SyncQueueItem × List SyncQueueItem), bumpFirst l tid = some p →
    p.1 ∈ l ∧ ∀ x ∈ p.2, x ∈ l ∨ x = { p.1 with retryCount := p.1.retryCount + 1 } := by
  intro l
  induction l with
  | nil => intro tid p h; simp [bumpFirst] at h
  | cons a rest ih =>
    intro tid p h
    simp only [bumpFirst] at h
    split at h
    · obtain rfl := Option.some.inj h
      constructor
      · simp
      · intro x hx
        rcases List.mem_cons.mp hx with rfl | hx2
        · right; rfl
        · left; simp [hx2]
    · split at h
      · rename_i p2 hb
        obtain rfl := Option.some.inj h
        obtain ⟨ih1, ih2⟩ := ih tid p2 hb
        constructor
        · simp [ih1]
        · intro x hx
          rcases List.mem_cons.mp hx with rfl | hx2
          · left; simp
          · rcases ih2 x hx2 with h3 | h3
            · left; simp [h3]
            · right; exact h3
      · simp at h

lemma rcMono_processResults {orig : List SyncQueueItem} (hF : FreshIds orig) :
    ∀ (results : List BatchResult) (st : State) (batchList : List SyncQueueItem),
      (∀ x ∈ batchList, OkItem orig x) → RcMono orig st.db.queue →
      RcMono orig (SyncService.processResults st batchList results).2.2.db.queue := by
  intro results
  induction results with
  | nil => intro st bl _ h; exact h
  | cons res rest ih =>
    intro st bl hok h
    simp only [SyncService.processResults]
    by_cases hs : res.success
    · rw [if_pos hs]
      exact ih _ bl hok
        (rcMono_updateSyncStatus hF st res.taskId SyncStatus.synced res.serverData h)
    · rw [if_neg hs]
      rcases hb : bumpFirst bl res.taskId with _ | p
      · exact ih _ bl hok h
      · obtain ⟨hmem, hsub⟩ := bumpFirst_spec bl res.taskId p hb
        exact ih _ p.2
          (fun x hx => by
            rcases hsub x hx with h3 | h3
            · exact hok x h3
            · rw [h3]
              exact okItem_bump (hok p.1 hmem))
          (rcMono_handleSyncError hF st p.1 (errMessageOf res.error) (hok p.1 hmem) h)

lemma rcMono_runBatches {orig : List SyncQueueItem} (hF : FreshIds orig)
    (oracle : Nat → TransportOutcome) :
    ∀ (batches : List (List SyncQueueItem)) (i succ err : Nat) (st : State),
      (∀ b ∈ batches, ∀ x ∈ b, OkItem orig x) → RcMono orig st.db.queue →
      RcMono orig (SyncService.runBatches oracle batches i succ err st).2.2.db.queue := by
  intro batches
  induction batches with
  | nil => intro i s e st _ h; exact h
  | cons b rest ih =>
    intro i s e st hok h
    simp only [SyncService.runBatches]
    rcases ho : oracle i with results | msg
    · exact ih _ _ _ _ (fun b2 hb2 => hok b2 (by simp [hb2]))
        (rcMono_processResults hF results st b (hok b (by simp)) h)
    · exact ih _ _ _ _ (fun b2 hb2 => hok b2 (by simp [hb2]))
        (rcMono_foldl_handle hF msg b st (hok b (by simp)) h)

end OfflineSync

namespace OfflineSync

lemma uuidName_head (n : Nat) : (uuidName n).data.head? = some 'u' := by
  show (("uuid-" ++ toString n)).data.head? = some 'u'
  rw [String.data_append]
  rfl

lemma ne_uuidName_of_head {s : String} (h : s.data.head? ≠ some 'u') (n : Nat) :
    s ≠ uuidName n := by
  intro he
  exact h (he ▸ uuidName_head n)

/-- One exhausted operation and one fresh operation for the same task. -/
def c6task : Task := { c1task with id := "tc" }

def c6itemA : SyncQueueItem :=
  { id := "qa", taskId := "tc", operation := Op.create, data := c6task
    retryCount := 3, lastError := none, createdAt := 0 }

def c6itemB : SyncQueueItem :=
  { id := "qb", taskId := "tc", operation := Op.update, data := c6task
    retryCount := 0, lastError := none, createdAt := 0 }

def c6st : State :=
  { db := { tasks := [c6task], queue := [c6itemA, c6itemB] }, clock := 0, uuidCounter := 0 }

/-- Claim C6 counterexample: exceeding the retry ceiling is NOT the sole
basis on which an operation is abandoned.  Item B starts at
`retryCount = 0`; the one failure it can accrue in this pass takes it only
to 1, far below the ceiling, and no result ever reports success (the
transport fails on every batch) — yet after `sync()` the queue is empty:
B was deleted because its sibling A (same `taskId`, `retryCount = 3`)
exhausted the ceiling and removal is keyed by `taskId`. -/
theorem claim_C6_counterexample :
    c6itemB ∈ c6st.db.queue ∧
    c6itemB.retryCount = 0 ∧
    c6itemB.retryCount + 1 ≤ 3 ∧
    (∀ i, c2oracleFail i = TransportOutcome.fail ("network error")) ∧
    (SyncService.sync 10 c2oracleFail c6st).state.db.queue = [] ∧
    (SyncService.sync 10 c2oracleFail c6st).result
        = { successCount := 0, errorCount := 2, total := 2 } :=
  ⟨by decide, by decide, by decide, fun i => rfl, by decide, by decide⟩

/-- Claim C6 (amended): (1) `addToSyncQueue` always appends an entry with
`retryCount = 0`; (2) over any whole `sync()` pass — provided the batch
size is positive, pre-existing ids are distinct and none collides with a
generator-produced uuid — the retry count recorded under any surviving
pre-existing id never decreases; (3) below the ceiling `handleSyncError`
neither adds nor removes entries (the id multiset is untouched); (4) on
exceeding the ceiling it abandons, by `taskId`, every entry sharing the
exhausted item's task — so ceiling exhaustion (or a confirmation, claim
C10) removes sibling entries too, and is not the sole per-entry basis for
abandonment. -/
theorem claim_C6_amended :
    (∀ st tid op d, ∃ qi,
        (SyncService.addToSyncQueue st tid op d).db.queue = st.db.queue ++ [qi] ∧
        qi.retryCount = 0 ∧ qi.taskId = tid ∧ qi.operation = op) ∧
    (∀ B oracle st, 0 < B →
        (∀ q ∈ st.db.queue, ∀ n, q.id ≠ uuidName n) →
        (st.db.queue.map SyncQueueItem.id).Nodup →
        ∀ q2 ∈ (SyncService.sync B oracle st).state.db.queue,
          ∀ q ∈ st.db.queue, q2.id = q.id → q.retryCount ≤ q2.retryCount) ∧
    (∀ st it msg, it.retryCount + 1 ≤ 3 →
        (SyncService.handleSyncError st it msg).db.queue.map SyncQueueItem.id
          = st.db.queue.map SyncQueueItem.id) ∧
    (∀ st it msg, 3 ≤ it.retryCount →
        ∀ q2 ∈ (SyncService.handleSyncError st it msg).db.queue, q2.taskId ≠ it.taskId) := by
  refine ⟨?_, ?_, ?_, ?_⟩
  · intro st tid op d
    exact ⟨_, addToSyncQueue_queue st tid op d, rfl, rfl, rfl⟩
  · intro B oracle st hB hF hN
    exact rcMono_runBatches hF oracle (chunks B st.db.queue) 0 0 0 st
      (fun b hb x hx => okItem_of_mem hN (mem_of_mem_chunks hb hx))
      (rcMono_of_nodup hN)
  · intro st it msg h
    rw [handleSyncError_below st it msg h]
    show (st.db.queue.map (updFn it msg)).map SyncQueueItem.id
        = st.db.queue.map SyncQueueItem.id
    rw [List.map_map]
    apply List.map_congr_left
    intro q _
    simp only [Function.comp_apply, updFn]
    split <;> rfl
  · intro st it msg h
    exact handleSyncError_exceed_not_mem st it msg h

/-- A single below-ceiling entry whose id cannot collide with a uuid. -/
def c6wtask : Task := { c1task with id := "tx" }

def c6wq : SyncQueueItem :=
  { id := "qx", taskId := "tx", operation := Op.update, data := c6wtask
    retryCount := 2, lastError := none, createdAt := 0 }

def c6wst : State :=
  { db := { tasks := [c6wtask], queue := [c6wq] }, clock := 0, uuidCounter := 0 }

def c6wqAfter : SyncQueueItem :=
  { c6wq with retryCount := 3, lastError := some ("network error") }

theorem claim_C6_amended_witness :
    c6wq.retryCount ≤ c6wqAfter.retryCount ∧
    c6wqAfter ∈ (SyncService.sync 10 c2oracleFail c6wst).state.db.queue := by
  have hF : ∀ q ∈ c6wst.db.queue, ∀ n, q.id ≠ uuidName n := by
    intro q hq n
    have hq2 : q = c6wq := by simpa [c6wst] using hq
    rw [hq2]
    exact ne_uuidName_of_head (by decide) n
  refine ⟨?_, by decide⟩
  exact claim_C6_amended.2.1 10 c2oracleFail c6wst (by decide) hF (by decide)
    c6wqAfter (by decide) c6wq (by decide) (by decide)

end OfflineSync
